import Mathlib

/-!
Formal model of the IOTA Streams message framing layer: the HDF header
frame, the PCF payload container frame, the sizeof pass of the ddml codec,
and the public-key store of the channels API.

Machine integers are modelled as `Nat` with explicit `% 2^w` where the
source truncates; fallible operations return `Except`.  The wire model
tracks only the bytes written to / read from the stream: `absorb` and
`skip` both move bytes, `External` absorption touches only the sponge and
moves no bytes, so it is a no-op on the wire.
-/

/-- Modelled from the spec: the `UTF8` encoding constant is the byte 0x00
(the constant's definition is not under src). -/
def UTF8 : Nat := 0

/-- Modelled from the spec: the protocol version constant `STREAMS_1_VER`;
its numeric value is not fixed by the sources under src, only that it is a
single byte. -/
def STREAMS_1_VER : Nat := 1

/-- Modelled from the spec: the `HDF_ID` frame-type constant (a byte). -/
def HDF_ID : Nat := 4

/-- Modelled from the spec: the `INIT_PCF_ID` frame-type constant. -/
def INIT_PCF_ID : Nat := 5

/-- Modelled from the spec: the `INTER_PCF_ID` frame-type constant. -/
def INTER_PCF_ID : Nat := 6

/-- Modelled from the spec: the `FINAL_PCF_ID` frame-type constant. -/
def FINAL_PCF_ID : Nat := 7

/-- The HDF header, from `src/iota-streams-app/src/message/hdf.rs`.
`Uint8` and `Uint64` newtypes are flattened to `Nat` (values < 2^8 resp.
2^64); `usize` fields are `Nat` (values < 2^64). -/
structure HDF (Link : Type) where
  encoding : Nat
  version : Nat
  content_type : Nat
  payload_length : Nat
  frame_type : Nat
  payload_frame_count : Nat
  link : Link
  seq_num : Nat
  deriving DecidableEq, Repr

/-- `HDF::new` from hdf.rs. -/
def HDF.new {Link : Type} (link : Link) : HDF Link :=
  { encoding := UTF8
    version := STREAMS_1_VER
    content_type := 0
    payload_length := 0
    frame_type := HDF_ID
    payload_frame_count := 0
    link := link
    seq_num := 0 }

/-- `HDF::with_content_type`: `ensure!(content_type < 0x10, ...)`. -/
def with_content_type {Link : Type} (h : HDF Link) (content_type : Nat) :
    Except String (HDF Link) :=
  if content_type < 0x10 then
    .ok { h with content_type := content_type }
  else
    .error "Content type out of range"

/-- `HDF::with_payload_length`: `ensure!(payload_length < 0x0400, ...)`. -/
def with_payload_length {Link : Type} (h : HDF Link) (payload_length : Nat) :
    Except String (HDF Link) :=
  if payload_length < 0x0400 then
    .ok { h with payload_length := payload_length }
  else
    .error "Payload length out of range"

/-- `HDF::with_payload_frame_count`: `ensure!(payload_frame_count < 0x400000, ...)`. -/
def with_payload_frame_count {Link : Type} (h : HDF Link) (payload_frame_count : Nat) :
    Except String (HDF Link) :=
  if payload_frame_count < 0x400000 then
    .ok { h with payload_frame_count := payload_frame_count }
  else
    .error "Payload frame count out of range"

/-- `HDF::with_seq_num(seq_num: u32)`: stores `Uint64(seq_num as u64)`. -/
def with_seq_num {Link : Type} (h : HDF Link) (seq_num : Nat) : HDF Link :=
  { h with seq_num := seq_num }

/-- `HDF::get_seq_num`. -/
def get_seq_num {Link : Type} (h : HDF Link) : Nat :=
  h.seq_num

/-- Big-endian bytes of a `u64`.  Modelled from the spec: `seq_num` is
written as 8 big-endian bytes (the `Uint64` wrap/skip impl is not under
src). -/
def be64 (n : Nat) : List Nat :=
  [(n >>> 56) % 256, (n >>> 48) % 256, (n >>> 40) % 256, (n >>> 32) % 256,
   (n >>> 24) % 256, (n >>> 16) % 256, (n >>> 8) % 256, n % 256]

/-- Value of 8 big-endian bytes, as `usize::from_be_bytes` computes it. -/
def from_be64 (b0 b1 b2 b3 b4 b5 b6 b7 : Nat) : Nat :=
  b0 * 2 ^ 56 + b1 * 2 ^ 48 + b2 * 2 ^ 40 + b3 * 2 ^ 32 +
  b4 * 2 ^ 24 + b5 * 2 ^ 16 + b6 * 2 ^ 8 + b7

/-- `construct_usize` from hdf.rs (the 64-bit branch): place the three wire
bytes at positions 5,6,7 of an 8-byte array and read it big-endian. -/
def construct_usize (v0 v1 v2 : Nat) : Nat :=
  v0 * 2 ^ 16 + v1 * 2 ^ 8 + v2

/-- `destruct_usize` from hdf.rs: the three wire bytes of
`payload_frame_count`, taken from bytes 5,6,7 of `to_be_bytes`, with the
first masked by 0x3f.  (The source's 32-bit twin has invalid syntax and is
dead; this is the canonical 64-bit branch.) -/
def destruct_usize (x : Nat) : List Nat :=
  [((x >>> 16) % 256) &&& 0x3f, (x >>> 8) % 256, x % 256]

/-- The wire bytes produced by `ContentWrap for HDF`'s `wrap`: `absorb`
and `skip` write bytes; the two `External` absorptions write nothing.
Byte arithmetic on `content_type << 4` wraps mod 256 as `u8` does. -/
def HDF.wrap {Link : Type} (h : HDF Link) : List Nat :=
  let v0 := ((h.content_type <<< 4) % 256) |||
            (((h.payload_length >>> 8) % 256) &&& 0x03)
  let v1 := h.payload_length % 256
  [h.encoding, h.version, v0, v1, h.frame_type] ++
    destruct_usize h.payload_frame_count ++ be64 h.seq_num

/-- The sizeof `Context` from `src/iota-streams-ddml/src/command/sizeof`:
a running byte count. -/
structure Context where
  size : Nat
  deriving DecidableEq, Repr

/-- `Skip<&Uint8> for Context` from `sizeof/skip.rs`: `self.size += 3`
(the comment says "All Uint8 values are encoded with 3 trits"). -/
def Context.skip_uint8 (c : Context) : Context :=
  { size := c.size + 3 }

/-- `Skip<&NBytes> for Context` from `sizeof/skip.rs`: adds the byte
length of the value. -/
def Context.skip_nbytes (c : Context) (n : Nat) : Context :=
  { size := c.size + n }

/-- Modelled from the spec: absorbing a `Uint8` contributes 1 byte (the
absorb sizeof impls are not under src; spec §4.2 sizing rules). -/
def Context.absorb_uint8 (c : Context) : Context :=
  { size := c.size + 1 }

/-- Modelled from the spec: external absorption contributes nothing to the
wire, hence nothing to the size. -/
def Context.absorb_external (c : Context) : Context :=
  c

/-- Modelled from the spec: skipping a `Uint64` contributes 8 bytes
(seq_num is 64 bits big-endian; the impl is not under src). -/
def Context.skip_uint64 (c : Context) : Context :=
  { size := c.size + 8 }

/-- `ContentSizeof for HDF`'s `sizeof` chain: absorb encoding, absorb
version, skip the 2-byte packed field, externally absorb `Uint8(ct<<4)`,
absorb frame_type, skip the 3-byte frame count, externally absorb the
link, skip the 8-byte seq_num. -/
def HDF.sizeof {Link : Type} (_h : HDF Link) : Nat :=
  let c := (Context.mk 0).absorb_uint8
  let c := c.absorb_uint8
  let c := c.skip_nbytes 2
  let c := c.absorb_external
  let c := c.absorb_uint8
  let c := c.skip_nbytes 3
  let c := c.absorb_external
  let c := c.skip_uint64
  c.size

/-- Errors raised by `ContentUnwrap for HDF`'s `unwrap`, one constructor
per `guard`/`ensure!` site of the source (the source carries them as
`anyhow` messages). -/
inductive UnwrapErr where
  | unsupportedVersion (expected found : Nat)
  | malformedHeader
  | unsupportedFrameType (expected found : Nat)
  | streamEnd
  deriving DecidableEq, Repr

/-- `ContentUnwrap for HDF`'s `unwrap` over a byte stream.  Mirrors the
source's order: absorb encoding; absorb version; guard the version; read
the 2-byte packed field; `ensure` its reserved bits; decode content_type
and payload_length; absorb frame_type; guard it; read the 3 frame-count
bytes; `ensure` their reserved bits; decode payload_frame_count; read the
8-byte seq_num.  The header is mutated in place as the source's
`&mut self` is, so on error the fields decoded so far keep their new
values; the result carries the final header state and either the rest of
the stream or the error. -/
def HDF.unwrap {Link : Type} (h : HDF Link) (s : List Nat) :
    HDF Link × Except UnwrapErr (List Nat) :=
  match s with
  | [] => (h, .error .streamEnd)
  | b0 :: s =>
    let h := { h with encoding := b0 }
    match s with
    | [] => (h, .error .streamEnd)
    | b1 :: s =>
      let h := { h with version := b1 }
      if b1 = STREAMS_1_VER then
        match s with
        | b2 :: b3 :: s =>
          if b2 &&& 0x0c = 0 then
            let h := { h with
              content_type := b2 >>> 4
              payload_length := ((b2 &&& 0x03) <<< 8) ||| b3 }
            match s with
            | [] => (h, .error .streamEnd)
            | b4 :: s =>
              let h := { h with frame_type := b4 }
              if b4 = HDF_ID then
                match s with
                | b5 :: b6 :: b7 :: s =>
                  if b5 &&& 0xc0 = 0 then
                    let h := { h with
                      payload_frame_count := construct_usize b5 b6 b7 }
                    match s with
                    | c0 :: c1 :: c2 :: c3 :: c4 :: c5 :: c6 :: c7 :: s =>
                      ({ h with
                          seq_num := from_be64 c0 c1 c2 c3 c4 c5 c6 c7 },
                       .ok s)
                    | _ => (h, .error .streamEnd)
                  else (h, .error .malformedHeader)
                | _ => (h, .error .streamEnd)
              else (h, .error (.unsupportedFrameType HDF_ID b4))
          else (h, .error .malformedHeader)
        | _ => (h, .error .streamEnd)
      else (h, .error (.unsupportedVersion STREAMS_1_VER b1))

/-- The PCF payload container frame, from
`src/iota-streams-app/src/message/pcf.rs`.  The `NBytes<U3>`
payload_frame_num is a triple of bytes. -/
structure PCF (Content : Type) where
  frame_type : Nat
  payload_frame_num : Nat × Nat × Nat
  content : Content
  deriving DecidableEq, Repr

/-- `PCF::new_init_frame`. -/
def new_init_frame : PCF Unit :=
  { frame_type := INIT_PCF_ID, payload_frame_num := (0, 0, 0), content := () }

/-- `PCF::new_inter_frame`. -/
def new_inter_frame : PCF Unit :=
  { frame_type := INTER_PCF_ID, payload_frame_num := (0, 0, 0), content := () }

/-- `PCF::new_final_frame`. -/
def new_final_frame : PCF Unit :=
  { frame_type := FINAL_PCF_ID, payload_frame_num := (0, 0, 0), content := () }

/-- `PCF::<()>::with_content`. -/
def with_content {Content : Type} (p : PCF Unit) (content : Content) : PCF Content :=
  { frame_type := p.frame_type, payload_frame_num := p.payload_frame_num
    content := content }

/-- `payload_frame_num_from` from pcf.rs: `ensure!(n < 0x400000, ...)`,
then bytes 5,6,7 of `n.to_be_bytes()`. -/
def payload_frame_num_from (n : Nat) : Except String (Nat × Nat × Nat) :=
  if n < 0x400000 then
    .ok ((n >>> 16) % 256, (n >>> 8) % 256, n % 256)
  else
    .error "Payload frame num out of range"

/-- `payload_frame_num_to` from pcf.rs (the 64-bit branch): read the three
bytes big-endian. -/
def payload_frame_num_to (v : Nat × Nat × Nat) : Nat :=
  v.1 * 2 ^ 16 + v.2.1 * 2 ^ 8 + v.2.2

/-- `PCF::new`. -/
def PCF.new {Content : Type} (frame_type : Nat) (payload_frame_num : Nat)
    (content : Content) : Except String (PCF Content) :=
  (payload_frame_num_from payload_frame_num).map fun v =>
    { frame_type := frame_type, payload_frame_num := v, content := content }

/-- `PCF::with_payload_frame_num`. -/
def with_payload_frame_num {Content : Type} (p : PCF Content)
    (payload_frame_num : Nat) : Except String (PCF Content) :=
  (payload_frame_num_from payload_frame_num).map fun v =>
    { p with payload_frame_num := v }

/-- `PCF::default_with_content`: frame bytes `[0, 0, 1]`, kind FINAL. -/
def default_with_content {Content : Type} (content : Content) : PCF Content :=
  { frame_type := FINAL_PCF_ID, payload_frame_num := (0, 0, 1), content := content }

/-- `PCF::get_payload_frame_num`. -/
def get_payload_frame_num {Content : Type} (p : PCF Content) : Nat :=
  payload_frame_num_to p.payload_frame_num

/-- Errors of the PCF unwrap path; the source carries them as `anyhow`
messages, the content's own failures are collapsed into one constructor. -/
inductive PCFErr where
  | frameNumOutOfRange
  | streamEnd
  | contentError
  deriving DecidableEq, Repr

/-- `payload_frame_num_check` from pcf.rs: `ensure!(v.as_ref()[0] < 0x40)`. -/
def payload_frame_num_check (v : Nat × Nat × Nat) : Except PCFErr Unit :=
  if v.1 < 0x40 then .ok () else .error .frameNumOutOfRange

/-- `ContentUnwrap for PCF`'s `unwrap`: absorb the frame_type byte, skip
the 3 payload_frame_num bytes, run `payload_frame_num_check`, then
delegate to the content's own unwrap.  The content codec is a parameter,
as `Content: ContentUnwrap` is in the source. -/
def PCF.unwrap {Content : Type}
    (contentUnwrap : Content → List Nat → Except PCFErr (Content × List Nat))
    (p : PCF Content) (s : List Nat) : Except PCFErr (PCF Content × List Nat) :=
  match s with
  | b0 :: n0 :: n1 :: n2 :: s =>
    let p := { p with frame_type := b0, payload_frame_num := (n0, n1, n2) }
    match payload_frame_num_check p.payload_frame_num with
    | .ok _ =>
      match contentUnwrap p.content s with
      | .ok (c, s2) => .ok ({ p with content := c }, s2)
      | .error e => .error e
    | .error e => .error e
  | _ => .error .streamEnd

/-- The Public-Key Store from
`src/iota-streams-app-channels/src/api/mod.rs`: a map from an ed25519
identity key to the pair of a precalculated x25519 key-agreement key and
some Info, modelled as an association list with the replace-on-insert
semantics of `HashMap`.  The key types and the derivation
`x25519::public_from_ed25519` are external primitives and hence
parameters of the model. -/
abbrev PublicKeyMap (IK KA Info : Type) : Type :=
  List (IK × KA × Info)

/-- `PublicKeyMap::new`. -/
def PublicKeyMap.new (IK KA Info : Type) : PublicKeyMap IK KA Info :=
  []

/-- `PublicKeyStore::insert` for `PublicKeyMap`: derive the x25519 key
from the ed25519 key at insertion and store it next to the info; an
existing entry for the key is replaced, as `HashMap::insert` replaces. -/
def PublicKeyMap.insert {IK KA Info : Type} [DecidableEq IK]
    (derive_ka : IK → KA) (m : PublicKeyMap IK KA Info) (pk : IK)
    (info : Info) : PublicKeyMap IK KA Info :=
  (pk, derive_ka pk, info) :: List.filter (fun e => decide (e.1 ≠ pk)) m

/-- `PublicKeyStore::get_ke_pk` for `PublicKeyMap`: look up the stored
x25519 key; no derivation happens here. -/
def PublicKeyMap.get_ke_pk {IK KA Info : Type} [DecidableEq IK]
    (m : PublicKeyMap IK KA Info) (pk : IK) : Option KA :=
  (List.find? (fun e => decide (e.1 = pk)) m).map (fun e => e.2.1)

/-- `PublicKeyStore::get` for `PublicKeyMap`: look up the stored Info. -/
def PublicKeyMap.get {IK KA Info : Type} [DecidableEq IK]
    (m : PublicKeyMap IK KA Info) (pk : IK) : Option Info :=
  (List.find? (fun e => decide (e.1 = pk)) m).map (fun e => e.2.2)

/-- Mutation of an entry's Info through `get_mut`: the x25519 component
is untouched. -/
def PublicKeyMap.modify_info {IK KA Info : Type} [DecidableEq IK]
    (m : PublicKeyMap IK KA Info) (pk : IK) (f : Info → Info) :
    PublicKeyMap IK KA Info :=
  List.map (fun e => if e.1 = pk then (e.1, e.2.1, f e.2.2) else e) m

/-- A mutating store operation: `insert`, or an update of an entry's Info
through `get_mut`. -/
inductive PKOp (IK Info : Type) where
  | insert (pk : IK) (info : Info)
  | modify (pk : IK) (f : Info → Info)

/-- Run a sequence of store operations left to right. -/
def PublicKeyMap.run {IK KA Info : Type} [DecidableEq IK]
    (derive_ka : IK → KA) :
    List (PKOp IK Info) → PublicKeyMap IK KA Info → PublicKeyMap IK KA Info
  | [], m => m
  | .insert pk info :: ops, m =>
    PublicKeyMap.run derive_ka ops (m.insert derive_ka pk info)
  | .modify pk f :: ops, m =>
    PublicKeyMap.run derive_ka ops (m.modify_info pk f)

/-- Propositional equality of `Except` results is decidable componentwise. -/
instance {e a : Type} [DecidableEq e] [DecidableEq a] : DecidableEq (Except e a) :=
  fun x y =>
    match x, y with
    | .error u, .error v =>
      if h : u = v then .isTrue (by rw [h])
      else .isFalse (fun hc => h (Except.error.inj hc))
    | .ok u, .ok v =>
      if h : u = v then .isTrue (by rw [h])
      else .isFalse (fun hc => h (Except.ok.inj hc))
    | .error _, .ok _ => .isFalse (fun hc => Except.noConfusion hc)
    | .ok _, .error _ => .isFalse (fun hc => Except.noConfusion hc)

/-! ### Helper lemmas on byte arithmetic -/

theorem shl4_lt_256 : ∀ c : Nat, c < 16 → c <<< 4 < 256 := by decide

theorem and3_of_lt : ∀ q : Nat, q < 4 → q &&& 3 = q := by decide

theorem and63_of_lt : ∀ x : Nat, x < 64 → x &&& 0x3f = x := by decide

theorem and192_of_lt : ∀ x : Nat, x < 64 → x &&& 0xc0 = 0 := by decide

theorem ctpl_byte_facts : ∀ c : Nat, c < 16 → ∀ q : Nat, q < 4 →
    ((c <<< 4) ||| q) &&& 0x0c = 0 ∧ ((c <<< 4) ||| q) >>> 4 = c ∧
    ((c <<< 4) ||| q) &&& 0x03 = q := by decide

set_option maxRecDepth 4096 in
theorem lor_mul256 : ∀ q : Nat, q < 4 → ∀ r : Nat, r < 256 →
    (q <<< 8) ||| r = q * 256 + r := by decide

theorem pl_shift8_lt (pl : Nat) (hpl : pl < 1024) : pl >>> 8 < 4 := by
  rw [Nat.shiftRight_eq_div_pow]
  omega

theorem pfc_shift16_lt (pfc : Nat) (hpfc : pfc < 2 ^ 22) : pfc >>> 16 < 64 := by
  rw [Nat.shiftRight_eq_div_pow]
  omega

/-- Under the HDF field invariants the wire bytes take the closed form of
the spec's layout table. -/
theorem hdf_wrap_bytes {Link : Type} (h : HDF Link)
    (hct : h.content_type < 16) (hpl : h.payload_length < 1024)
    (hpfc : h.payload_frame_count < 2 ^ 22) :
    h.wrap = [h.encoding, h.version,
      (h.content_type <<< 4) ||| (h.payload_length >>> 8),
      h.payload_length % 256, h.frame_type,
      h.payload_frame_count >>> 16, (h.payload_frame_count >>> 8) % 256,
      h.payload_frame_count % 256] ++ be64 h.seq_num := by
  have hq := pl_shift8_lt h.payload_length hpl
  have hf := pfc_shift16_lt h.payload_frame_count hpfc
  simp only [HDF.wrap, destruct_usize,
    Nat.mod_eq_of_lt (shl4_lt_256 h.content_type hct),
    Nat.mod_eq_of_lt (Nat.lt_trans hq (by norm_num : (4:Nat) < 256)),
    Nat.mod_eq_of_lt (Nat.lt_trans hf (by norm_num : (64:Nat) < 256)),
    and3_of_lt (h.payload_length >>> 8) hq,
    and63_of_lt (h.payload_frame_count >>> 16) hf,
    List.cons_append, List.nil_append]

/-- Unwrapping an explicit well-formed 16-byte stream decodes every field
by the inverse packing. -/
theorem hdf_unwrap_explicit {Link : Type} (h0 : HDF Link)
    (e v0 v1 f0 f1 f2 c0 c1 c2 c3 c4 c5 c6 c7 : Nat) (rest : List Nat)
    (hres1 : v0 &&& 0x0c = 0) (hres2 : f0 &&& 0xc0 = 0) :
    HDF.unwrap h0 (e :: STREAMS_1_VER :: v0 :: v1 :: HDF_ID :: f0 :: f1 ::
        f2 :: c0 :: c1 :: c2 :: c3 :: c4 :: c5 :: c6 :: c7 :: rest) =
      ({ h0 with
          encoding := e
          version := STREAMS_1_VER
          content_type := v0 >>> 4
          payload_length := ((v0 &&& 0x03) <<< 8) ||| v1
          frame_type := HDF_ID
          payload_frame_count := construct_usize f0 f1 f2
          seq_num := from_be64 c0 c1 c2 c3 c4 c5 c6 c7 }, .ok rest) := by
  simp only [List.cons_append, List.nil_append, HDF.unwrap, hres1, hres2,
    if_pos rfl, eq_self_iff_true, if_true]

theorem hdf_decode_pl (pl : Nat) (hpl : pl < 1024) :
    ((pl >>> 8) <<< 8) ||| (pl % 256) = pl := by
  rw [lor_mul256 (pl >>> 8) (pl_shift8_lt pl hpl) (pl % 256)
      (Nat.mod_lt pl (by norm_num))]
  rw [Nat.shiftRight_eq_div_pow]
  omega

theorem hdf_decode_pfc (pfc : Nat) (_hpfc : pfc < 2 ^ 22) :
    construct_usize (pfc >>> 16) ((pfc >>> 8) % 256) (pfc % 256) = pfc := by
  simp only [construct_usize, Nat.shiftRight_eq_div_pow]
  omega

theorem hdf_decode_seq (sq : Nat) (hsq : sq < 2 ^ 64) :
    from_be64 ((sq >>> 56) % 256) ((sq >>> 48) % 256) ((sq >>> 40) % 256)
      ((sq >>> 32) % 256) ((sq >>> 24) % 256) ((sq >>> 16) % 256)
      ((sq >>> 8) % 256) (sq % 256) = sq := by
  simp only [from_be64, Nat.shiftRight_eq_div_pow]
  omega

/-- C1 (amended): for every HDF whose fields are in range and whose
version and frame_type carry their protocol constants, unwrapping the
wrapped bytes from any target header holding the same link reproduces the
header exactly and consumes the whole stream, and the number of bytes
produced by wrap equals the size computed by the sizeof pass. -/
theorem hdf_wrap_unwrap_roundtrip_sizeof {Link : Type} (h h0 : HDF Link)
    (hlink : h0.link = h.link)
    (hct : h.content_type < 16) (hpl : h.payload_length < 1024)
    (hpfc : h.payload_frame_count < 2 ^ 22)
    (hver : h.version = STREAMS_1_VER) (hft : h.frame_type = HDF_ID)
    (hsq : h.seq_num < 2 ^ 64) :
    HDF.unwrap h0 h.wrap = (h, Except.ok []) ∧ h.wrap.length = h.sizeof := by
  have hq := pl_shift8_lt h.payload_length hpl
  have hf := pfc_shift16_lt h.payload_frame_count hpfc
  have hv0 := ctpl_byte_facts h.content_type hct (h.payload_length >>> 8) hq
  constructor
  · rw [hdf_wrap_bytes h hct hpl hpfc, hver, hft]
    simp only [be64, List.cons_append, List.nil_append, HDF.unwrap,
      hv0.1, hv0.2.1, hv0.2.2, and192_of_lt _ hf, eq_self_iff_true, if_true,
      if_pos rfl]
    rw [hdf_decode_pl h.payload_length hpl,
      hdf_decode_pfc h.payload_frame_count hpfc,
      hdf_decode_seq h.seq_num hsq, hlink, ← hver, ← hft]
  · rfl

/-- C1 (counterexample): a header whose three numeric fields are all in
range but whose version byte is not `STREAMS_1_VER` does not round-trip:
unwrap rejects the version, so the claim quantified only over the ranges
of content_type, payload_length and payload_frame_count is false. -/
theorem hdf_roundtrip_fails_on_foreign_version :
    (⟨0, 2, 3, 10, 4, 0, 0, 42⟩ : HDF Nat).content_type < 16 ∧
    (⟨0, 2, 3, 10, 4, 0, 0, 42⟩ : HDF Nat).payload_length < 1024 ∧
    (⟨0, 2, 3, 10, 4, 0, 0, 42⟩ : HDF Nat).payload_frame_count < 2 ^ 22 ∧
    HDF.unwrap (HDF.new 0) (⟨0, 2, 3, 10, 4, 0, 0, 42⟩ : HDF Nat).wrap ≠
      ((⟨0, 2, 3, 10, 4, 0, 0, 42⟩ : HDF Nat), Except.ok []) ∧
    (HDF.unwrap (HDF.new 0) (⟨0, 2, 3, 10, 4, 0, 0, 42⟩ : HDF Nat).wrap).2 =
      Except.error (UnwrapErr.unsupportedVersion STREAMS_1_VER 2) := by
  decide

/-- C1 (witness): the amended round-trip theorem applied to a concrete
in-range header. -/
theorem hdf_wrap_unwrap_roundtrip_sizeof_witness :
    HDF.unwrap (HDF.new 0) (⟨0, 1, 3, 10, 4, 5, 0, 42⟩ : HDF Nat).wrap =
      ((⟨0, 1, 3, 10, 4, 5, 0, 42⟩ : HDF Nat), Except.ok []) ∧
    (⟨0, 1, 3, 10, 4, 5, 0, 42⟩ : HDF Nat).wrap.length =
      (⟨0, 1, 3, 10, 4, 5, 0, 42⟩ : HDF Nat).sizeof :=
  hdf_wrap_unwrap_roundtrip_sizeof (⟨0, 1, 3, 10, 4, 5, 0, 42⟩ : HDF Nat)
    (HDF.new 0) rfl (by decide) (by decide) (by decide) rfl rfl (by decide)

theorem and255_eq_mod (x : Nat) : x &&& 0xff = x % 256 :=
  Nat.and_pow_two_sub_one_eq_mod x 8

/-- C2: wrap packs content_type and payload_length into the shared 2-byte
field as byte0 = (ct<<4) | ((pl>>8) & 0x03) and byte1 = pl & 0xff, and
emits payload_frame_count as a 3-byte big-endian field holding its low 22
bits with the top 2 bits zero on the wire; unwrap inverts exactly this
packing, recovering ct, pl and pfc from those bytes. -/
theorem hdf_bit_packing {Link : Type} (h h0 : HDF Link)
    (hct : h.content_type < 16) (hpl : h.payload_length < 1024)
    (hpfc : h.payload_frame_count < 2 ^ 22) (e sq : Nat) :
    (h.wrap = [h.encoding, h.version,
        (h.content_type <<< 4) ||| ((h.payload_length >>> 8) &&& 0x03),
        h.payload_length &&& 0xff, h.frame_type,
        (h.payload_frame_count >>> 16) &&& 0x3f,
        (h.payload_frame_count >>> 8) &&& 0xff,
        h.payload_frame_count &&& 0xff] ++ be64 h.seq_num) ∧
    ((h.payload_frame_count >>> 16) &&& 0x3f) &&& 0xc0 = 0 ∧
    ((HDF.unwrap h0 ([e, STREAMS_1_VER,
        (h.content_type <<< 4) ||| ((h.payload_length >>> 8) &&& 0x03),
        h.payload_length &&& 0xff, HDF_ID,
        (h.payload_frame_count >>> 16) &&& 0x3f,
        (h.payload_frame_count >>> 8) &&& 0xff,
        h.payload_frame_count &&& 0xff] ++ be64 sq)).1.content_type =
      h.content_type ∧
     (HDF.unwrap h0 ([e, STREAMS_1_VER,
        (h.content_type <<< 4) ||| ((h.payload_length >>> 8) &&& 0x03),
        h.payload_length &&& 0xff, HDF_ID,
        (h.payload_frame_count >>> 16) &&& 0x3f,
        (h.payload_frame_count >>> 8) &&& 0xff,
        h.payload_frame_count &&& 0xff] ++ be64 sq)).1.payload_length =
      h.payload_length ∧
     (HDF.unwrap h0 ([e, STREAMS_1_VER,
        (h.content_type <<< 4) ||| ((h.payload_length >>> 8) &&& 0x03),
        h.payload_length &&& 0xff, HDF_ID,
        (h.payload_frame_count >>> 16) &&& 0x3f,
        (h.payload_frame_count >>> 8) &&& 0xff,
        h.payload_frame_count &&& 0xff] ++ be64 sq)).1.payload_frame_count =
      h.payload_frame_count) := by
  have hq := pl_shift8_lt h.payload_length hpl
  have hf := pfc_shift16_lt h.payload_frame_count hpfc
  have hv0 := ctpl_byte_facts h.content_type hct (h.payload_length >>> 8) hq
  have hrw : ∀ x : Nat, x &&& 0xff = x % 256 := and255_eq_mod
  rw [and3_of_lt (h.payload_length >>> 8) hq,
    and63_of_lt (h.payload_frame_count >>> 16) hf, hrw, hrw, hrw]
  refine ⟨?_, and192_of_lt _ hf, ?_⟩
  · rw [hdf_wrap_bytes h hct hpl hpfc]
  · simp only [be64, List.cons_append, List.nil_append]
    rw [hdf_unwrap_explicit h0 e _ _ _ _ _ _ _ _ _ _ _ _ _ []
      hv0.1 (and192_of_lt _ hf)]
    refine ⟨hv0.2.1, ?_, hdf_decode_pfc h.payload_frame_count hpfc⟩
    rw [hv0.2.2]
    exact hdf_decode_pl h.payload_length hpl

/-- C2 (witness): the packing theorem at ct=3, pl=10, pfc=5: the packed
bytes are 0x30, 0x0a and the frame-count field 0,0,5. -/
theorem hdf_bit_packing_witness :
    (⟨0, 1, 3, 10, 4, 5, 0, 42⟩ : HDF Nat).wrap =
      [0, 1, 48, 10, 4, 0, 0, 5] ++ be64 42 :=
  ((hdf_bit_packing (⟨0, 1, 3, 10, 4, 5, 0, 42⟩ : HDF Nat) (HDF.new 0)
      (by decide) (by decide) (by decide) 0 42).1).trans (by decide)

/-- C3: on a stream long enough to reach each check, unwrap fails with
UnsupportedVersion when the version byte differs from STREAMS_1_VER;
past that with MalformedHeader when byte0 of the packed ct/pl field has a
reserved bit set ((b2 & 0x0c) ≠ 0); past that with UnsupportedFrameType
when the frame-type byte differs from HDF_ID; past that with
MalformedHeader when byte0 of the frame-count field has a reserved bit
set ((b5 & 0xc0) ≠ 0); and succeeds past all four checks. -/
theorem hdf_unwrap_guards {Link : Type} (h0 : HDF Link)
    (b0 b1 b2 b3 b4 b5 b6 b7 c0 c1 c2 c3 c4 c5 c6 c7 : Nat)
    (rest : List Nat) :
    (b1 ≠ STREAMS_1_VER →
      (HDF.unwrap h0 (b0 :: b1 :: b2 :: b3 :: b4 :: b5 :: b6 :: b7 ::
        c0 :: c1 :: c2 :: c3 :: c4 :: c5 :: c6 :: c7 :: rest)).2 =
        .error (.unsupportedVersion STREAMS_1_VER b1)) ∧
    (b1 = STREAMS_1_VER → b2 &&& 0x0c ≠ 0 →
      (HDF.unwrap h0 (b0 :: b1 :: b2 :: b3 :: b4 :: b5 :: b6 :: b7 ::
        c0 :: c1 :: c2 :: c3 :: c4 :: c5 :: c6 :: c7 :: rest)).2 =
        .error .malformedHeader) ∧
    (b1 = STREAMS_1_VER → b2 &&& 0x0c = 0 → b4 ≠ HDF_ID →
      (HDF.unwrap h0 (b0 :: b1 :: b2 :: b3 :: b4 :: b5 :: b6 :: b7 ::
        c0 :: c1 :: c2 :: c3 :: c4 :: c5 :: c6 :: c7 :: rest)).2 =
        .error (.unsupportedFrameType HDF_ID b4)) ∧
    (b1 = STREAMS_1_VER → b2 &&& 0x0c = 0 → b4 = HDF_ID → b5 &&& 0xc0 ≠ 0 →
      (HDF.unwrap h0 (b0 :: b1 :: b2 :: b3 :: b4 :: b5 :: b6 :: b7 ::
        c0 :: c1 :: c2 :: c3 :: c4 :: c5 :: c6 :: c7 :: rest)).2 =
        .error .malformedHeader) ∧
    (b1 = STREAMS_1_VER → b2 &&& 0x0c = 0 → b4 = HDF_ID → b5 &&& 0xc0 = 0 →
      (HDF.unwrap h0 (b0 :: b1 :: b2 :: b3 :: b4 :: b5 :: b6 :: b7 ::
        c0 :: c1 :: c2 :: c3 :: c4 :: c5 :: c6 :: c7 :: rest)).2 =
        .ok rest) := by
  refine ⟨?_, ?_, ?_, ?_, ?_⟩
  · intro h1
    simp only [HDF.unwrap, if_neg h1]
  · intro h1 h2
    subst h1
    simp only [HDF.unwrap, if_pos rfl, eq_self_iff_true, if_true, if_neg h2]
  · intro h1 h2 h3
    subst h1
    simp only [HDF.unwrap, if_pos rfl, eq_self_iff_true, if_true, if_pos h2, if_neg h3]
  · intro h1 h2 h3 h4
    subst h1
    subst h3
    simp only [HDF.unwrap, if_pos rfl, eq_self_iff_true, if_true, if_pos h2, if_neg h4]
  · intro h1 h2 h3 h4
    subst h1
    subst h3
    simp only [HDF.unwrap, if_pos rfl, eq_self_iff_true, if_true, if_pos h2, if_pos h4]

/-- C3 (witness): the guard theorem at a wrong version byte and at a fully
valid stream. -/
theorem hdf_unwrap_guards_witness :
    (HDF.unwrap (HDF.new (0 : Nat)) [0, 9, 0, 0, 4, 0, 0, 0,
      0, 0, 0, 0, 0, 0, 0, 0]).2 =
      .error (.unsupportedVersion STREAMS_1_VER 9) ∧
    (HDF.unwrap (HDF.new (0 : Nat)) [0, 1, 0, 0, 4, 0, 0, 0,
      0, 0, 0, 0, 0, 0, 0, 7]).2 = .ok [] :=
  ⟨(hdf_unwrap_guards (HDF.new 0) 0 9 0 0 4 0 0 0 0 0 0 0 0 0 0 0 []).1
      (by decide),
   (hdf_unwrap_guards (HDF.new 0) 0 1 0 0 4 0 0 0 0 0 0 0 0 0 0 7 []).2.2.2.2
      rfl (by decide) rfl (by decide)⟩

/-- C10: when unwrap fails a guard, the target header is not rolled back:
each field decoded before the failing check keeps its newly decoded value
while the later fields keep the target's old values.  After the version
guard fails, encoding and version already hold the bytes read; after the
first reserved-bit check fails, only encoding and version were written;
after the frame-type guard fails, content_type, payload_length and the
offending frame_type are also written; after the second reserved-bit
check fails, payload_frame_count is still the old value. -/
theorem hdf_unwrap_no_rollback {Link : Type} (h0 : HDF Link) :
    (∀ b0 b1 rest, b1 ≠ STREAMS_1_VER →
      HDF.unwrap h0 (b0 :: b1 :: rest) =
        ({ h0 with encoding := b0, version := b1 },
         .error (.unsupportedVersion STREAMS_1_VER b1))) ∧
    (∀ b0 b2 b3 rest, b2 &&& 0x0c ≠ 0 →
      HDF.unwrap h0 (b0 :: STREAMS_1_VER :: b2 :: b3 :: rest) =
        ({ h0 with encoding := b0, version := STREAMS_1_VER },
         .error .malformedHeader)) ∧
    (∀ b0 b2 b3 b4 rest, b2 &&& 0x0c = 0 → b4 ≠ HDF_ID →
      HDF.unwrap h0 (b0 :: STREAMS_1_VER :: b2 :: b3 :: b4 :: rest) =
        ({ h0 with
            encoding := b0
            version := STREAMS_1_VER
            content_type := b2 >>> 4
            payload_length := ((b2 &&& 0x03) <<< 8) ||| b3
            frame_type := b4 },
         .error (.unsupportedFrameType HDF_ID b4))) ∧
    (∀ b0 b2 b3 b5 b6 b7 rest, b2 &&& 0x0c = 0 → b5 &&& 0xc0 ≠ 0 →
      HDF.unwrap h0
          (b0 :: STREAMS_1_VER :: b2 :: b3 :: HDF_ID :: b5 :: b6 :: b7 :: rest) =
        ({ h0 with
            encoding := b0
            version := STREAMS_1_VER
            content_type := b2 >>> 4
            payload_length := ((b2 &&& 0x03) <<< 8) ||| b3
            frame_type := HDF_ID },
         .error .malformedHeader)) := by
  refine ⟨?_, ?_, ?_, ?_⟩
  · intro b0 b1 rest h1
    cases rest with
    | nil => simp only [HDF.unwrap, if_neg h1]
    | cons x xs =>
      cases xs with
      | nil => simp only [HDF.unwrap, if_neg h1]
      | cons y ys => simp only [HDF.unwrap, if_neg h1]
  · intro b0 b2 b3 rest h2
    simp only [HDF.unwrap, if_pos rfl, eq_self_iff_true, if_true, if_neg h2]
  · intro b0 b2 b3 b4 rest h2 h3
    simp only [HDF.unwrap, if_pos rfl, eq_self_iff_true, if_true, if_pos h2,
      if_neg h3]
  · intro b0 b2 b3 b5 b6 b7 rest h2 h4
    simp only [HDF.unwrap, if_pos rfl, eq_self_iff_true, if_true, if_pos h2,
      if_neg h4]

/-- C10 (witness): after a version failure on stream [7, 9], the target's
encoding and version fields hold 7 and 9. -/
theorem hdf_unwrap_no_rollback_witness :
    HDF.unwrap (HDF.new (0 : Nat)) [7, 9] =
      ({ HDF.new (0 : Nat) with encoding := 7, version := 9 },
       .error (.unsupportedVersion STREAMS_1_VER 9)) :=
  (hdf_unwrap_no_rollback (HDF.new (0 : Nat))).1 7 9 [] (by decide)

/-- C4 (counterexample): a header holding the out-of-range content_type
16 wraps without any error: `ContentWrap for HDF` performs no range check,
it truncates `content_type << 4` mod 256 and emits the 16 bytes, so the
claim that wrapping an out-of-range value fails with OutOfRange is
false. -/
theorem hdf_wrap_no_range_check_counterexample :
    16 ≤ (⟨0, 1, 16, 0, 4, 0, 0, 0⟩ : HDF Nat).content_type ∧
    (⟨0, 1, 16, 0, 4, 0, 0, 0⟩ : HDF Nat).wrap =
      [0, 1, 0, 0, 4, 0, 0, 0, 0, 0, 0, 0, 0, 0, 0, 0] := by
  decide

/-- C4 (amended): the range validation lives in the fluent setters: each
setter succeeds and stores any in-range value and fails with an
out-of-range error otherwise, while wrap itself performs no validation
and always emits exactly sizeof-many bytes, whatever the field values. -/
theorem hdf_setters_validate {Link : Type} (h : HDF Link) (ct pl pfc : Nat) :
    (ct < 16 → with_content_type h ct = .ok { h with content_type := ct }) ∧
    (16 ≤ ct → with_content_type h ct = .error "Content type out of range") ∧
    (pl < 1024 → with_payload_length h pl = .ok { h with payload_length := pl }) ∧
    (1024 ≤ pl →
      with_payload_length h pl = .error "Payload length out of range") ∧
    (pfc < 0x400000 → with_payload_frame_count h pfc =
      .ok { h with payload_frame_count := pfc }) ∧
    (0x400000 ≤ pfc → with_payload_frame_count h pfc =
      .error "Payload frame count out of range") ∧
    h.wrap.length = h.sizeof := by
  refine ⟨?_, ?_, ?_, ?_, ?_, ?_, rfl⟩
  · intro hr
    rw [with_content_type, if_pos hr]
  · intro hr
    rw [with_content_type, if_neg (Nat.not_lt.mpr hr)]
  · intro hr
    rw [with_payload_length, if_pos hr]
  · intro hr
    rw [with_payload_length, if_neg (Nat.not_lt.mpr hr)]
  · intro hr
    rw [with_payload_frame_count, if_pos hr]
  · intro hr
    rw [with_payload_frame_count, if_neg (Nat.not_lt.mpr hr)]

/-- C4 (witness): the amended theorem at ct = 3 (stored) and, through the
16 ≤ ct branch, at ct = 16 (rejected). -/
theorem hdf_setters_validate_witness :
    with_content_type (HDF.new (0 : Nat)) 3 =
      .ok { HDF.new (0 : Nat) with content_type := 3 } ∧
    with_content_type (HDF.new (0 : Nat)) 16 =
      .error "Content type out of range" :=
  ⟨(hdf_setters_validate (HDF.new (0 : Nat)) 3 0 0).1 (by decide),
   (hdf_setters_validate (HDF.new (0 : Nat)) 16 0 0).2.1 (by decide)⟩

/-- C5: in the sizeof context, skipping a Uint8 adds 3 to the running
size, not 1: the implementation still carries the legacy ternary
arithmetic while every sibling impl in the same file and the octet wire
layout count 1 byte per Uint8. -/
theorem sizeof_skip_uint8_adds_three :
    (Context.mk 0).skip_uint8.size = 3 ∧
    ∀ c : Context, c.skip_uint8.size = c.size + 3 :=
  ⟨rfl, fun _ => rfl⟩

/-- C6: `PCF::new` and `with_payload_frame_num` fail exactly on
n ≥ 0x400000 and store the 3 big-endian bytes of n otherwise, and
`PCF::unwrap` fails when the first decoded payload_frame_num byte is
≥ 0x40, before ever calling the content's unwrap. -/
theorem pcf_frame_num_range_and_check {Content : Type} (ft n : Nat)
    (c : Content) (p : PCF Content)
    (contentUnwrap : Content → List Nat → Except PCFErr (Content × List Nat))
    (b0 n0 n1 n2 : Nat) (rest : List Nat) :
    (n < 0x400000 → PCF.new ft n c =
      .ok ⟨ft, ((n >>> 16) % 256, (n >>> 8) % 256, n % 256), c⟩) ∧
    (0x400000 ≤ n → PCF.new ft n c = .error "Payload frame num out of range") ∧
    (n < 0x400000 → with_payload_frame_num p n =
      .ok { p with payload_frame_num :=
              ((n >>> 16) % 256, (n >>> 8) % 256, n % 256) }) ∧
    (0x400000 ≤ n → with_payload_frame_num p n =
      .error "Payload frame num out of range") ∧
    (0x40 ≤ n0 → PCF.unwrap contentUnwrap p (b0 :: n0 :: n1 :: n2 :: rest) =
      .error .frameNumOutOfRange) := by
  refine ⟨?_, ?_, ?_, ?_, ?_⟩
  · intro hr
    rw [PCF.new, payload_frame_num_from, if_pos hr]
    rfl
  · intro hr
    rw [PCF.new, payload_frame_num_from, if_neg (Nat.not_lt.mpr hr)]
    rfl
  · intro hr
    rw [with_payload_frame_num, payload_frame_num_from, if_pos hr]
    rfl
  · intro hr
    rw [with_payload_frame_num, payload_frame_num_from,
      if_neg (Nat.not_lt.mpr hr)]
    rfl
  · intro hr
    simp only [PCF.unwrap, payload_frame_num_check,
      if_neg (Nat.not_lt.mpr hr)]

/-- C6 (witness): frame number 1 is stored as bytes (0,0,1), 0x400000 is
rejected, and an unwrap whose first frame-num byte is 0x40 fails even with
a content unwrapper that always succeeds. -/
theorem pcf_frame_num_range_and_check_witness :
    PCF.new 5 1 () = .ok ⟨5, (0, 0, 1), ()⟩ ∧
    PCF.new 5 0x400000 () = .error "Payload frame num out of range" ∧
    PCF.unwrap (fun c s => .ok (c, s)) (⟨5, (0, 0, 0), ()⟩ : PCF Unit)
      [7, 0x40, 0, 0] = .error .frameNumOutOfRange :=
  ⟨((pcf_frame_num_range_and_check 5 1 () (⟨5, (0, 0, 0), ()⟩ : PCF Unit)
      (fun c s => .ok (c, s)) 7 0x40 0 0 []).1 (by decide)).trans (by decide),
   (pcf_frame_num_range_and_check 5 0x400000 () (⟨5, (0, 0, 0), ()⟩ : PCF Unit)
      (fun c s => .ok (c, s)) 7 0x40 0 0 []).2.1 (by decide),
   (pcf_frame_num_range_and_check 5 1 () (⟨5, (0, 0, 0), ()⟩ : PCF Unit)
      (fun c s => .ok (c, s)) 7 0x40 0 0 []).2.2.2.2 (by decide)⟩

set_option maxRecDepth 2048 in
/-- C7: the three PCF constructors carry payload_frame_num 0 and their
respective frame-type constants, with_content attaches the content and
changes nothing else, and default_with_content produces a FINAL frame
with payload_frame_num 1. -/
theorem pcf_constructors {Content : Type} (p : PCF Unit) (c : Content) :
    new_init_frame.frame_type = INIT_PCF_ID ∧
    get_payload_frame_num new_init_frame = 0 ∧
    new_inter_frame.frame_type = INTER_PCF_ID ∧
    get_payload_frame_num new_inter_frame = 0 ∧
    new_final_frame.frame_type = FINAL_PCF_ID ∧
    get_payload_frame_num new_final_frame = 0 ∧
    (with_content p c).frame_type = p.frame_type ∧
    (with_content p c).payload_frame_num = p.payload_frame_num ∧
    (with_content p c).content = c ∧
    (default_with_content c).frame_type = FINAL_PCF_ID ∧
    get_payload_frame_num (default_with_content c) = 1 := by
  refine ⟨rfl, by decide, rfl, by decide, rfl, by decide, rfl, rfl, rfl, rfl, ?_⟩
  simp [get_payload_frame_num, default_with_content, payload_frame_num_to]

theorem pkm_get_ke_pk_mem {IK KA Info : Type} [DecidableEq IK]
    (m : PublicKeyMap IK KA Info) (pk : IK) (ka : KA)
    (hget : m.get_ke_pk pk = some ka) :
    ∃ e, e ∈ m ∧ e.1 = pk ∧ e.2.1 = ka := by
  unfold PublicKeyMap.get_ke_pk at hget
  cases hfind : List.find? (fun e => decide (e.1 = pk)) m with
  | none =>
    rw [hfind] at hget
    simp at hget
  | some e =>
    rw [hfind] at hget
    have hp := List.find?_some hfind
    refine ⟨e, List.mem_of_find?_eq_some hfind, of_decide_eq_true hp, ?_⟩
    simpa using hget

theorem pkm_insert_inv {IK KA Info : Type} [DecidableEq IK]
    (derive : IK → KA) (m : PublicKeyMap IK KA Info) (pk : IK) (info : Info)
    (hm : ∀ e ∈ m, e.2.1 = derive e.1) :
    ∀ e ∈ m.insert derive pk info, e.2.1 = derive e.1 := by
  intro e he
  unfold PublicKeyMap.insert at he
  rcases List.mem_cons.mp he with h | h
  · subst h
    rfl
  · exact hm e (List.mem_of_mem_filter h)

theorem pkm_modify_inv {IK KA Info : Type} [DecidableEq IK]
    (derive : IK → KA) (m : PublicKeyMap IK KA Info) (pk : IK)
    (f : Info → Info) (hm : ∀ e ∈ m, e.2.1 = derive e.1) :
    ∀ e ∈ m.modify_info pk f, e.2.1 = derive e.1 := by
  intro e he
  unfold PublicKeyMap.modify_info at he
  rcases List.mem_map.mp he with ⟨e0, he0, heq⟩
  subst heq
  by_cases h : e0.1 = pk
  · simp only [if_pos h]
    exact hm e0 he0
  · simp only [if_neg h]
    exact hm e0 he0

theorem pkm_run_inv {IK KA Info : Type} [DecidableEq IK]
    (derive : IK → KA) (ops : List (PKOp IK Info))
    (m : PublicKeyMap IK KA Info) (hm : ∀ e ∈ m, e.2.1 = derive e.1) :
    ∀ e ∈ PublicKeyMap.run derive ops m, e.2.1 = derive e.1 := by
  induction ops generalizing m with
  | nil => exact hm
  | cons op ops ih =>
    cases op with
    | insert pk info => exact ih _ (pkm_insert_inv derive m pk info hm)
    | modify pk f => exact ih _ (pkm_modify_inv derive m pk f hm)

/-- C8: after any sequence of store operations starting from the empty
Public-Key Store, every key-agreement key that get_ke_pk returns for an
identity key is exactly the one derived from it at insertion time; the
lookup itself performs no derivation (the theorem holds for an arbitrary
derivation function that get_ke_pk never receives). -/
theorem pk_store_ka_invariant {IK KA Info : Type} [DecidableEq IK]
    (derive_ka : IK → KA) (ops : List (PKOp IK Info)) (pk : IK) (ka : KA)
    (hget : PublicKeyMap.get_ke_pk
        (PublicKeyMap.run derive_ka ops (PublicKeyMap.new IK KA Info)) pk =
      some ka) :
    ka = derive_ka pk := by
  obtain ⟨e, he, h1, h2⟩ := pkm_get_ke_pk_mem _ pk ka hget
  have hinv := pkm_run_inv derive_ka ops (PublicKeyMap.new IK KA Info)
    (by intro e he; exact absurd he (List.not_mem_nil e)) e he
  rw [← h2, hinv, h1]

/-- C8 (witness): after inserting keys 1 and 2 and modifying 1's info,
looking up key 1 under the derivation Nat.succ returns exactly
Nat.succ 1. -/
theorem pk_store_ka_invariant_witness :
    PublicKeyMap.get_ke_pk
        (PublicKeyMap.run Nat.succ
          [PKOp.insert 1 0, PKOp.modify 1 (fun x => x + 10), PKOp.insert 2 5]
          (PublicKeyMap.new Nat Nat Nat)) 1 = some 2 ∧
    (2 : Nat) = Nat.succ 1 :=
  ⟨rfl,
   pk_store_ka_invariant Nat.succ
     [PKOp.insert 1 0, PKOp.modify 1 (fun x => x + 10), PKOp.insert 2 5]
     1 2 rfl⟩

/-- C9: with_seq_num stores the 32-bit argument zero-extended into the
64-bit seq_num field: get_seq_num returns it unchanged, below 2^64 and
with the high 32 bits zero. -/
theorem with_seq_num_zero_extends {Link : Type} (h : HDF Link) (s : Nat)
    (hs : s < 2 ^ 32) :
    get_seq_num (with_seq_num h s) = s ∧
    get_seq_num (with_seq_num h s) < 2 ^ 64 ∧
    get_seq_num (with_seq_num h s) >>> 32 = 0 := by
  refine ⟨rfl, ?_, ?_⟩
  · show s < 2 ^ 64
    omega
  · show s >>> 32 = 0
    rw [Nat.shiftRight_eq_div_pow]
    omega

/-- C9 (witness): storing 7 through the 32-bit setter yields seq_num 7
with zero high bits. -/
theorem with_seq_num_zero_extends_witness :
    get_seq_num (with_seq_num (HDF.new (0 : Nat)) 7) = 7 ∧
    get_seq_num (with_seq_num (HDF.new (0 : Nat)) 7) < 2 ^ 64 ∧
    get_seq_num (with_seq_num (HDF.new (0 : Nat)) 7) >>> 32 = 0 :=
  with_seq_num_zero_extends (HDF.new (0 : Nat)) 7 (by decide)
